import Mathlib

/-!
Shallow embedding of `material-manager.py`.

Conventions of the embedding:
* A directory discovered by the `os.walk` scan is a `DirEntry`: its path is
  stored relative to the scan root (the current working directory), which is
  exactly the value `os.path.relpath(directory, os.getcwd())` that the script
  uses both for the material name and for the `reldir` texture paths.
* File contents read byte-wise (`D.png`, opened in binary mode) are `List Nat`;
  the material file, read and written in text mode, is a `String`.
* Presence of `N.png` / `S.png` is a `Bool` field, since the script only ever
  tests `os.path.isfile` on them.
* Printing is modelled by returning the list of printed lines; printed paths
  are rendered relative to the scan root.
* `string.Template.substitute` is applied to a fixed template literal, so the
  embedding builds the already-substituted text: `${name}`/`$name` become the
  material name, `${reldir}` the relative directory, `$parent` the parent
  material, and the escape `$$shadow_caster_material` the literal
  `$shadow_caster_material`.
-/

/-- One step of Python `str.replace`, fuelled: scan left to right, replace each
leftmost occurrence of `old` by `new` and continue after it, non-overlapping.
`fuel = length of the scanned list` suffices whenever `old` is nonempty,
because every step consumes at least one character. -/
def replaceAux (old new : List Char) : Nat → List Char → List Char
  | 0, l => l
  | _ + 1, [] => []
  | fuel + 1, c :: cs =>
    if old.isPrefixOf (c :: cs) then
      new ++ replaceAux old new fuel (cs.drop (old.length - 1))
    else
      c :: replaceAux old new fuel cs

/-- Python `s.replace(old, new)` as used by the source (the source only calls
it with nonempty `old` and `new = ""`; for `old = ""` together with `new = ""`
Python also returns `s` unchanged). -/
def pyReplace (s old new : String) : String :=
  if old = "" then s
  else String.mk (replaceAux old.toList new.toList s.toList.length s.toList)

/-- Material name derivation, from `main` (lines 139-143): path relative to the
scan root, with the literal substrings removed in source order, then the
`/global/` prefix prepended. -/
def deriveMaterialName (relpath : String) : String :=
  "/global/" ++ pyReplace (pyReplace (pyReplace relpath "textures/" "") "3d_objects/" "") "3d_skeletons/" ""

/-- Python `pat in l` on strings viewed as character lists: `pat` occurs as a
contiguous substring of `l`. -/
def substrOf (pat l : List Char) : Bool :=
  match l with
  | [] => pat.isEmpty
  | c :: t => pat.isPrefixOf (c :: t) || substrOf pat t

/-- The lines of a text file as Python's line iteration yields them: every line
keeps its trailing newline, and a final fragment without a newline is a line of
its own; the empty file has no lines. -/
def pyLinesL : List Char → List (List Char)
  | [] => []
  | c :: cs =>
    if c = '\n' then [c] :: pyLinesL cs
    else
      match pyLinesL cs with
      | [] => [[c]]
      | l :: ls => (c :: l) :: ls

/-- String version of `pyLinesL`. -/
def pyLines (s : String) : List String :=
  (pyLinesL s.toList).map String.mk

/-- `is_valid` (lines 15-27): the material file is valid iff some line of its
content contains the material name as a substring. The embedding receives the
file's content in place of its path. -/
def is_valid (content material_name : String) : Bool :=
  (pyLines content).any fun line => substrOf material_name.toList line.toList

/-- A directory visited by the walk. `path` is relative to the scan root;
`dPng` is the byte content of `D.png` when that file exists; `nPng` / `sPng`
record existence of `N.png` / `S.png`; `ogreMaterial` is the text content of
`ogre.material` when that file exists. -/
structure DirEntry where
  path : String
  dPng : Option (List Nat)
  nPng : Bool
  sPng : Bool
  ogreMaterial : Option String
deriving DecidableEq

/-- `has_normal_map` (line 53): `N.png` exists in the directory. -/
def has_normal_map (d : DirEntry) : Bool :=
  d.nPng

/-- `has_specular_map` (line 62): `S.png` exists in the directory. -/
def has_specular_map (d : DirEntry) : Bool :=
  d.sPng

/-- `has_alpha_diffuse_map` (lines 29-43): `D.png` exists, its first
`read(26)` bytes number exactly 26, and the byte at offset 25 equals 6. -/
def has_alpha_diffuse_map (d : DirEntry) : Bool :=
  match d.dPng with
  | none => false
  | some content =>
    let header := content.take 26
    if header.length ≠ 26 then false
    else header.getD 25 0 == 6

/-- The parent material computed inside `generate_material` (lines 80-87):
start from `/base/simple`, override by the normal/specular cases, then append
the non-culled alpha-rejected suffix when the diffuse map has alpha. -/
def parentMaterial (d : DirEntry) : String :=
  let base :=
    if has_normal_map d && has_specular_map d then "/base/normalmap/specular"
    else if has_normal_map d then "/base/normalmap"
    else "/base/simple"
  if has_alpha_diffuse_map d then base ++ "/nonculled/alpharejected" else base

/-- The material script text built by `generate_material` (lines 75-113), with
`Template.substitute` already applied to the fixed template literal. -/
def materialScript (d : DirEntry) (material_name : String) : String :=
  let reldir := d.path
  let specular := has_specular_map d
  let normal := has_normal_map d
  let alpha := has_alpha_diffuse_map d
  let material := "import * from \"resources/ogre/scripts/materials/base.material\"\n"
  let material :=
    if alpha then
      material
      ++ "import * from \"resources/ogre/scripts/programs/DepthShadowmap.material\"\n"
      ++ "material " ++ material_name ++ "/shadowcaster : Ogre/DepthShadowmap/Caster/Float\n\x7b\n"
      ++ "    set_texture_alias DiffuseMap " ++ reldir ++ "/D.png\n\x7d\n"
    else material
  let material := material ++ "material " ++ material_name ++ " : " ++ parentMaterial d ++ "\n\x7b\n"
  let material := material ++ "    set_texture_alias DiffuseMap " ++ reldir ++ "/D.png\n"
  let material :=
    if alpha then material ++ "    set $shadow_caster_material " ++ material_name ++ "/shadowcaster\n"
    else material
  let material :=
    if normal then material ++ "    set_texture_alias NormalHeightMap " ++ reldir ++ "/N.png\n"
    else material
  let material :=
    if specular then material ++ "    set_texture_alias SpecularMap " ++ reldir ++ "/S.png\n"
    else material
  material ++ "\x7d"

/-- `generate_material` (lines 65-117): print the progress line and write the
script text into the directory's `ogre.material`. -/
def generate_material (d : DirEntry) (material_file material_name : String) :
    DirEntry × List String :=
  ({ d with ogreMaterial := some (materialScript d material_name) },
   ["---- Generating material file " ++ material_file])

/-- The four CLI modes (lines 122-125). -/
inductive Mode where
  | findMissing
  | createMissing
  | findInvalid
  | refresh
deriving DecidableEq

/-- The body of the loop in `main` (lines 136-155) for one walked directory:
directories without a `D.png` are never selected by the scan comprehension;
otherwise dispatch on the mode and on existence of `ogre.material`. Returns
the directory's new state and the printed lines. -/
def processDir (mode : Mode) (d : DirEntry) : DirEntry × List String :=
  match d.dPng with
  | none => (d, [])
  | some _ =>
    let material_file := d.path ++ "/ogre.material"
    let material_name := deriveMaterialName d.path
    match d.ogreMaterial with
    | none =>
      match mode with
      | Mode.findMissing => (d, [material_file])
      | Mode.createMissing => generate_material d material_file material_name
      | _ => (d, [])
    | some content =>
      match mode with
      | Mode.refresh =>
        generate_material { d with ogreMaterial := none } material_file material_name
      | Mode.findInvalid =>
        if is_valid content material_name then (d, []) else (d, [material_file])
      | _ => (d, [])

/-- The whole run of `main` over the walked directories, in walk order:
each directory is processed independently (the script only ever touches the
directory's own `ogre.material`). Returns the final directory states and the
concatenated printed lines. -/
def runMode (mode : Mode) : List DirEntry → List DirEntry × List String
  | [] => ([], [])
  | d :: ds =>
    let r := processDir mode d
    let rest := runMode mode ds
    (r.1 :: rest.1, r.2 ++ rest.2)

/-- Byte content of a 26-byte `D.png` whose byte at offset 25 equals 6. -/
def alphaHeaderBytes : List Nat :=
  List.replicate 25 0 ++ [6]

/-- The directory of the spec's worked example: `textures/rock/01` with an
alpha-bearing `D.png` and an `N.png` but no `S.png`, and no material file. -/
def rockDir : DirEntry :=
  { path := "textures/rock/01", dPng := some alphaHeaderBytes, nPng := true,
    sPng := false, ogreMaterial := none }

/-- A directory with every texture kind present and no material file. -/
def sampleAllDir : DirEntry :=
  { path := "textures/sample", dPng := some alphaHeaderBytes, nPng := true,
    sPng := true, ogreMaterial := none }

/-- A directory with an alpha `D.png` and an existing material file. -/
def sampleWithMaterialDir : DirEntry :=
  { path := "textures/r", dPng := some alphaHeaderBytes, nPng := false,
    sPng := false, ogreMaterial := some "old content" }

/-- A directory without any `D.png`. -/
def noDiffuseDir : DirEntry :=
  { path := "textures/empty", dPng := none, nPng := true, sPng := true,
    ogreMaterial := some "stale" }

theorem replaceAux_eq_of_substr_false (old new : List Char) :
    ∀ (fuel : Nat) (l : List Char), substrOf old l = false →
      replaceAux old new fuel l = l := by
  intro fuel
  induction fuel with
  | zero => intro l _; rfl
  | succ n ih =>
    intro l h
    cases l with
    | nil => rfl
    | cons c cs =>
      have h2 : (old.isPrefixOf (c :: cs) || substrOf old cs) = false := h
      rw [Bool.or_eq_false_iff] at h2
      have hpre : ¬ old.isPrefixOf (c :: cs) = true := by
        rw [h2.1]; exact Bool.false_ne_true
      show replaceAux old new (n + 1) (c :: cs) = c :: cs
      rw [replaceAux, if_neg hpre, ih cs h2.2]

theorem replaceAux_erase_length_le (old : List Char) :
    ∀ (fuel : Nat) (l : List Char),
      (replaceAux old [] fuel l).length ≤ l.length := by
  intro fuel
  induction fuel with
  | zero => intro l; exact Nat.le_refl _
  | succ n ih =>
    intro l
    cases l with
    | nil => exact Nat.le_refl _
    | cons c cs =>
      show (replaceAux old [] (n + 1) (c :: cs)).length ≤ (c :: cs).length
      rw [replaceAux]
      by_cases hpre : old.isPrefixOf (c :: cs) = true
      · rw [if_pos hpre, List.nil_append]
        have h1 := ih (cs.drop (old.length - 1))
        have h2 : (cs.drop (old.length - 1)).length = cs.length - (old.length - 1) :=
          List.length_drop _ _
        simp only [List.length_cons]
        omega
      · rw [if_neg hpre]
        simp only [List.length_cons]
        have := ih cs
        omega

theorem replaceAux_erase_length_lt (old : List Char) (hold : old ≠ []) :
    ∀ (fuel : Nat) (l : List Char), substrOf old l = true → l.length ≤ fuel →
      (replaceAux old [] fuel l).length < l.length := by
  intro fuel
  induction fuel with
  | zero =>
    intro l hsub hlen
    have hnil : l = [] := List.length_eq_zero.mp (Nat.le_zero.mp hlen)
    subst hnil
    have hempty : old.isEmpty = true := hsub
    exact absurd (List.isEmpty_iff.mp hempty) hold
  | succ n ih =>
    intro l hsub hlen
    cases l with
    | nil =>
      have hempty : old.isEmpty = true := hsub
      exact absurd (List.isEmpty_iff.mp hempty) hold
    | cons c cs =>
      show (replaceAux old [] (n + 1) (c :: cs)).length < (c :: cs).length
      rw [replaceAux]
      by_cases hpre : old.isPrefixOf (c :: cs) = true
      · rw [if_pos hpre, List.nil_append]
        have h1 := replaceAux_erase_length_le old n (cs.drop (old.length - 1))
        have h2 : (cs.drop (old.length - 1)).length = cs.length - (old.length - 1) :=
          List.length_drop _ _
        simp only [List.length_cons]
        omega
      · have h2 : (old.isPrefixOf (c :: cs) || substrOf old cs) = true := hsub
        have hcs : substrOf old cs = true := by
          rcases Bool.or_eq_true_iff.mp h2 with h | h
          · exact absurd h hpre
          · exact h
        rw [if_neg hpre]
        simp only [List.length_cons] at hlen ⊢
        have := ih cs hcs (by omega)
        omega

theorem toList_ne_nil_of_ne_empty (p : String) (hp : p ≠ "") : p.toList ≠ [] := by
  intro h
  apply hp
  cases p with
  | mk data =>
    have hdata : data = [] := h
    rw [hdata]

theorem pyReplace_erase_eq_self_iff (s p : String) (hp : p ≠ "") :
    pyReplace s p "" = s ↔ substrOf p.toList s.toList = false := by
  rw [pyReplace, if_neg hp]
  constructor
  · intro h
    by_contra hsub
    have hsub' : substrOf p.toList s.toList = true := by
      cases hx : substrOf p.toList s.toList
      · exact absurd hx hsub
      · rfl
    have hlt := replaceAux_erase_length_lt p.toList (toList_ne_nil_of_ne_empty p hp)
      s.toList.length s.toList hsub' (Nat.le_refl _)
    have hdata : replaceAux p.toList [] s.toList.length s.toList = s.toList := by
      have := congrArg String.data h
      exact this
    rw [hdata] at hlt
    exact absurd hlt (Nat.lt_irrefl _)
  · intro h
    have heq := replaceAux_eq_of_substr_false p.toList [] s.toList.length s.toList h
    show String.mk (replaceAux p.toList ("".toList) s.toList.length s.toList) = s
    rw [show ("".toList : List Char) = [] from rfl, heq]
    cases s with
    | mk data => rfl

/-- C4: the material name is the path relative to the scan root with the
literal substrings `textures/`, `3d_objects/`, `3d_skeletons/` removed in that
order wherever they occur, prefixed by `/global/`. Removal is by occurrence,
not by path segment: a replacement leaves the string unchanged exactly when
the pattern occurs nowhere in it, and the two evaluations show removal at a
non-segment-boundary occurrence and removal of every occurrence. -/
theorem c4_material_name_derivation :
    (∀ r : String, deriveMaterialName r =
        "/global/" ++
          pyReplace (pyReplace (pyReplace r "textures/" "") "3d_objects/" "") "3d_skeletons/" "")
    ∧ (∀ p s : String, p ≠ "" →
        (pyReplace s p "" = s ↔ substrOf p.toList s.toList = false))
    ∧ deriveMaterialName "a/mytextures/b" = "/global/a/myb"
    ∧ deriveMaterialName "textures/a/textures/b" = "/global/a/b" := by
  refine ⟨fun r => rfl, fun p s hp => pyReplace_erase_eq_self_iff s p hp, ?_, ?_⟩
  · rfl
  · rfl

/-- Witness for C4 at concrete inputs: `textures/` is nonempty, occurs nowhere
in `abc`, and removing it from `abc` changes nothing. -/
theorem c4_witness :
    pyReplace "abc" "textures/" "" = "abc" :=
  (c4_material_name_derivation.2.1 "textures/" "abc" (by decide)).mpr (by decide)

/-- C1: the parent material follows the priority decision table on the
normal/specular flags, with the `/nonculled/alpharejected` suffix appended
exactly when the diffuse map has alpha. -/
theorem c1_parent_decision_table (d : DirEntry) :
    parentMaterial d =
      (if has_normal_map d then
        (if has_specular_map d then "/base/normalmap/specular" else "/base/normalmap")
       else "/base/simple")
      ++ (if has_alpha_diffuse_map d then "/nonculled/alpharejected" else "") := by
  rw [parentMaterial]
  cases hn : has_normal_map d <;> cases hs : has_specular_map d <;>
    cases ha : has_alpha_diffuse_map d <;>
      simp [String.append_empty]

/-- C3: `has_alpha_diffuse_map` is true exactly when `D.png` exists, holds at
least 26 bytes, and its byte at offset 25 equals 6; it is false (and, being a
total function, raises nothing) in every other case, including absence of the
file and contents shorter than 26 bytes. -/
theorem c3_has_alpha_iff (d : DirEntry) :
    has_alpha_diffuse_map d = true ↔
      ∃ bytes : List Nat, d.dPng = some bytes ∧ 26 ≤ bytes.length ∧
        bytes.getD 25 0 = 6 := by
  cases hd : d.dPng with
  | none => simp [has_alpha_diffuse_map, hd]
  | some content =>
    rw [has_alpha_diffuse_map, hd]
    have hlen : (content.take 26).length = min 26 content.length :=
      List.length_take 26 content
    constructor
    · intro h
      by_cases h26 : (content.take 26).length = 26
      · have hgeq : 26 ≤ content.length := by omega
        refine ⟨content, rfl, hgeq, ?_⟩
        simp only [h26, ne_eq, not_true_eq_false, if_false] at h
        have hb : (content.take 26).getD 25 0 = 6 := by
          simpa using h
        rw [List.getD_eq_getElem?_getD, List.getElem?_take_of_lt (by omega)] at hb
        rw [List.getD_eq_getElem?_getD]
        exact hb
      · simp only [ne_eq, h26, not_false_eq_true, if_true] at h
        exact absurd h Bool.false_ne_true
    · rintro ⟨bytes, hbytes, hblen, hb⟩
      have hbeq : content = bytes := Option.some.inj hbytes
      subst hbeq
      have h26 : (content.take 26).length = 26 := by omega
      simp only [h26, ne_eq, not_true_eq_false, if_false]
      have hval : (content.take 26).getD 25 0 = 6 := by
        rw [List.getD_eq_getElem?_getD, List.getElem?_take_of_lt (by omega)]
        rw [List.getD_eq_getElem?_getD] at hb
        exact hb
      simpa using hval

/-- C2: the generated script text depends only on the three texture-presence
flags, the material name, and the relative directory path, and consists of the
base import, the optional shadow-caster import and block (present exactly when
the diffuse map has alpha), and the main block with its diffuse alias and the
optional shadow-caster-material, normal-map and specular-map lines. -/
theorem c2_script_structure (d₁ d₂ : DirEntry) (name : String)
    (hn : has_normal_map d₁ = has_normal_map d₂)
    (hs : has_specular_map d₁ = has_specular_map d₂)
    (ha : has_alpha_diffuse_map d₁ = has_alpha_diffuse_map d₂)
    (hp : d₁.path = d₂.path) :
    materialScript d₁ name = materialScript d₂ name
    ∧ materialScript d₁ name =
        "import * from \"resources/ogre/scripts/materials/base.material\"\n"
        ++ (if has_alpha_diffuse_map d₁ then
              "import * from \"resources/ogre/scripts/programs/DepthShadowmap.material\"\n"
              ++ "material " ++ name ++ "/shadowcaster : Ogre/DepthShadowmap/Caster/Float\n\x7b\n"
              ++ "    set_texture_alias DiffuseMap " ++ d₁.path ++ "/D.png\n\x7d\n"
            else "")
        ++ "material " ++ name ++ " : " ++ parentMaterial d₁ ++ "\n\x7b\n"
        ++ "    set_texture_alias DiffuseMap " ++ d₁.path ++ "/D.png\n"
        ++ (if has_alpha_diffuse_map d₁ then
              "    set $shadow_caster_material " ++ name ++ "/shadowcaster\n"
            else "")
        ++ (if has_normal_map d₁ then
              "    set_texture_alias NormalHeightMap " ++ d₁.path ++ "/N.png\n"
            else "")
        ++ (if has_specular_map d₁ then
              "    set_texture_alias SpecularMap " ++ d₁.path ++ "/S.png\n"
            else "")
        ++ "\x7d" := by
  constructor
  · simp only [materialScript, parentMaterial, hn, hs, ha, hp]
  · rw [materialScript]
    cases ha2 : has_alpha_diffuse_map d₁ <;> cases hn2 : has_normal_map d₁ <;>
      cases hs2 : has_specular_map d₁ <;>
        simp only [if_true, if_false, Bool.false_eq_true, eq_self_iff_true,
          String.append_assoc, String.append_empty, String.empty_append]

set_option maxRecDepth 10000 in
/-- Witness for C2: at the all-flags directory the generated text evaluates to
the expected literal script. -/
theorem c2_witness :
    materialScript sampleAllDir "/global/sample" =
      "import * from \"resources/ogre/scripts/materials/base.material\"\nimport * from \"resources/ogre/scripts/programs/DepthShadowmap.material\"\nmaterial /global/sample/shadowcaster : Ogre/DepthShadowmap/Caster/Float\n\x7b\n    set_texture_alias DiffuseMap textures/sample/D.png\n\x7d\nmaterial /global/sample : /base/normalmap/specular/nonculled/alpharejected\n\x7b\n    set_texture_alias DiffuseMap textures/sample/D.png\n    set $shadow_caster_material /global/sample/shadowcaster\n    set_texture_alias NormalHeightMap textures/sample/N.png\n    set_texture_alias SpecularMap textures/sample/S.png\n\x7d" :=
  ((c2_script_structure sampleAllDir sampleAllDir "/global/sample" rfl rfl rfl rfl).2).trans
    (by decide)

/-- C5 (amended): in refresh mode a processed directory whose material file
exists has it deleted and regenerated, so afterwards its content is the script
determined by the current texture flags, whatever the prior content was. -/
theorem c5_refresh_regenerates_existing (d : DirEntry)
    (hD : d.dPng.isSome = true) (hM : d.ogreMaterial.isSome = true) :
    processDir Mode.refresh d =
      ({ d with ogreMaterial := some (materialScript d (deriveMaterialName d.path)) },
       ["---- Generating material file " ++ (d.path ++ "/ogre.material")]) := by
  obtain ⟨path, dpng, npng, spng, ogremat⟩ := d
  cases dpng with
  | none => simp at hD
  | some bytes =>
    cases ogremat with
    | none => simp at hM
    | some content => rfl

/-- Witness for C5's amended statement at a concrete directory with an
existing material file. -/
theorem c5_witness :
    sampleWithMaterialDir.dPng.isSome = true
    ∧ sampleWithMaterialDir.ogreMaterial.isSome = true
    ∧ processDir Mode.refresh sampleWithMaterialDir =
        ({ sampleWithMaterialDir with ogreMaterial := some (materialScript sampleWithMaterialDir (deriveMaterialName sampleWithMaterialDir.path)) },
         ["---- Generating material file "
            ++ (sampleWithMaterialDir.path ++ "/ogre.material")]) :=
  ⟨rfl, rfl, c5_refresh_regenerates_existing sampleWithMaterialDir rfl rfl⟩

/-- Counterexample to C5 as stated: `rockDir` is processed (it has a `D.png`)
but has no material file, and a refresh run leaves it without a material file
and prints nothing — refresh does not regenerate when the file was absent, so
the final content does not reflect the texture flags regardless of prior
existence. -/
theorem c5_counterexample :
    rockDir.dPng.isSome = true
    ∧ rockDir.ogreMaterial = none
    ∧ processDir Mode.refresh rockDir = (rockDir, []) :=
  ⟨rfl, rfl, rfl⟩

/-- C6: in create-missing mode a processed directory whose material file
already exists is left untouched and nothing is printed. -/
theorem c6_create_missing_noop (d : DirEntry)
    (hD : d.dPng.isSome = true) (hM : d.ogreMaterial.isSome = true) :
    processDir Mode.createMissing d = (d, []) := by
  obtain ⟨path, dpng, npng, spng, ogremat⟩ := d
  cases dpng with
  | none => simp at hD
  | some bytes =>
    cases ogremat with
    | none => simp at hM
    | some content => rfl

/-- Witness for C6 at a concrete directory with an existing material file. -/
theorem c6_witness :
    sampleWithMaterialDir.dPng.isSome = true
    ∧ sampleWithMaterialDir.ogreMaterial.isSome = true
    ∧ processDir Mode.createMissing sampleWithMaterialDir = (sampleWithMaterialDir, []) :=
  ⟨rfl, rfl, c6_create_missing_noop sampleWithMaterialDir rfl rfl⟩

/-- C8: a walked directory without a `D.png` is processed by no mode: its
state is unchanged and nothing is printed for it. -/
theorem c8_no_diffuse_untouched (mode : Mode) (d : DirEntry) (h : d.dPng = none) :
    processDir mode d = (d, []) := by
  obtain ⟨path, dpng, npng, spng, ogremat⟩ := d
  cases dpng with
  | none => rfl
  | some bytes => exact Option.noConfusion h

/-- Witness for C8 at a concrete directory with no `D.png`, in refresh mode. -/
theorem c8_witness :
    noDiffuseDir.dPng = none
    ∧ processDir Mode.refresh noDiffuseDir = (noDiffuseDir, []) :=
  ⟨rfl, c8_no_diffuse_untouched Mode.refresh noDiffuseDir rfl⟩

theorem processDir_findInvalid_snd (d : DirEntry) :
    (processDir Mode.findInvalid d).2 =
      if d.dPng.isSome && (match d.ogreMaterial with
          | some c => !(is_valid c (deriveMaterialName d.path))
          | none => false) then [d.path ++ "/ogre.material"] else [] := by
  obtain ⟨path, dpng, npng, spng, ogremat⟩ := d
  cases dpng with
  | none => rfl
  | some b =>
    cases ogremat with
    | none => rfl
    | some content =>
      cases hv : is_valid content (deriveMaterialName path) with
      | false => simp [processDir, hv]
      | true => simp [processDir, hv]

theorem runMode_findInvalid_out (fs : List DirEntry) :
    (runMode Mode.findInvalid fs).2 =
      (fs.filter fun d => d.dPng.isSome && (match d.ogreMaterial with
          | some c => !(is_valid c (deriveMaterialName d.path))
          | none => false)).map fun d => d.path ++ "/ogre.material" := by
  induction fs with
  | nil => rfl
  | cons d ds ih =>
    show (processDir Mode.findInvalid d).2 ++ (runMode Mode.findInvalid ds).2 = _
    obtain ⟨path, dpng, npng, spng, ogremat⟩ := d
    cases dpng with
    | none => simpa using ih
    | some b =>
      cases ogremat with
      | none => simpa using ih
      | some content =>
        cases hv : is_valid content (deriveMaterialName path) with
        | false => simp [processDir, hv, ih]
        | true => simp [processDir, hv, ih]

/-- C7: validity is a purely textual containment check — true exactly when
some line of the material file contains the material name as a substring —
and a find-invalid run prints exactly the material-file paths of the
processed directories whose existing material file fails that check. -/
theorem c7_find_invalid_contract :
    (∀ content name : String, is_valid content name = true ↔
        ∃ line ∈ pyLines content, substrOf name.toList line.toList = true)
    ∧ ∀ fs : List DirEntry, (runMode Mode.findInvalid fs).2 =
        (fs.filter fun d => d.dPng.isSome && (match d.ogreMaterial with
            | some c => !(is_valid c (deriveMaterialName d.path))
            | none => false)).map fun d => d.path ++ "/ogre.material" := by
  constructor
  · intro content name
    simp [is_valid, List.any_eq_true]
  · exact runMode_findInvalid_out

theorem processDir_findMissing_fst (d : DirEntry) :
    (processDir Mode.findMissing d).1 = d := by
  obtain ⟨path, dpng, npng, spng, ogremat⟩ := d
  cases dpng <;> cases ogremat <;> rfl

theorem processDir_findInvalid_fst (d : DirEntry) :
    (processDir Mode.findInvalid d).1 = d := by
  obtain ⟨path, dpng, npng, spng, ogremat⟩ := d
  cases dpng with
  | none => rfl
  | some b =>
    cases ogremat with
    | none => rfl
    | some content =>
      cases hv : is_valid content (deriveMaterialName path) with
      | false => simp [processDir, hv]
      | true => simp [processDir, hv]

/-- C10: the find-missing and find-invalid modes only read: a whole run leaves
every directory's state — in particular every material file's existence and
content — exactly as it was. -/
theorem c10_find_modes_read_only (fs : List DirEntry) :
    (runMode Mode.findMissing fs).1 = fs ∧ (runMode Mode.findInvalid fs).1 = fs := by
  induction fs with
  | nil => exact ⟨rfl, rfl⟩
  | cons d ds ih =>
    constructor
    · show (processDir Mode.findMissing d).1 :: (runMode Mode.findMissing ds).1 = d :: ds
      rw [processDir_findMissing_fst, ih.1]
    · show (processDir Mode.findInvalid d).1 :: (runMode Mode.findInvalid ds).1 = d :: ds
      rw [processDir_findInvalid_fst, ih.2]

set_option maxRecDepth 20000 in
/-- C9: for the spec's worked example `textures/rock/01` — alpha-bearing
`D.png` (26 bytes, byte 25 equal to 6), an `N.png`, no `S.png` — the material
name is `/global/rock/01`, the parent is
`/base/normalmap/nonculled/alpharejected`, and the generated script contains
the shadow-caster block named `/global/rock/01/shadowcaster` and the
`NormalHeightMap` alias line but no `SpecularMap` alias. -/
theorem c9_rock_example :
    deriveMaterialName rockDir.path = "/global/rock/01"
    ∧ parentMaterial rockDir = "/base/normalmap/nonculled/alpharejected"
    ∧ substrOf "material /global/rock/01/shadowcaster".toList
        (materialScript rockDir (deriveMaterialName rockDir.path)).toList = true
    ∧ substrOf "set_texture_alias NormalHeightMap".toList
        (materialScript rockDir (deriveMaterialName rockDir.path)).toList = true
    ∧ substrOf "SpecularMap".toList
        (materialScript rockDir (deriveMaterialName rockDir.path)).toList = false := by
  refine ⟨rfl, rfl, ?_, ?_, ?_⟩ <;> decide
